import Mathlib

/-!
Verification of the VesicleDetection repository core against its specification.

The development shallowly embeds the relevant parts of the source:
* `src/processing/post_processing/score_prediction.py` (`score_prediction`):
  center-cropping of the ground truth, label-set derivation via `np.unique`,
  per-label precision/recall/fscore with NaN sentinels, macro averages;
* `src/processing/predict.py` (`Prediction.__init__`, `Prediction.predict_pipeline`):
  predict-shape derivation and the size of the requested prediction region;
* `src/model/model.py` (`UnetOutputShape`, not shipped in this tree): modelled
  from the specification of the shape resolver;
* `src/data_loader.py` (`EMData.__init__`): attribute consistency checks;
* `run.py` (`__main__`): the no-prediction guard on the best score.

Python floats carrying `np.nan` are modelled by `EFloat`: either the NaN
sentinel or an exact rational value.  All arithmetic reachable in the code
stays on finite values (every division is guarded by a positivity test), so
rationals are a faithful value model; NaN propagates through `+`, `*`, `/`
and makes every comparison false, as in IEEE semantics.
-/

namespace VesicleDet

/-! ### Python slice semantics

`score_prediction` crops with `target[b0:-b0, b1:-b1, b2:-b2]` where each
`bk = int((target.shape[k] - pred.shape[k])/2)`.  Python's `int()` on the
exact float `d/2` truncates toward zero, i.e. `Int.tdiv d 2`.  A slice
`a[i:j]` over an axis of length `n` resolves each endpoint by adding `n` to a
negative index and clamping into `[0, n]`; the selected voxels are
`[start, stop)`. -/

/-- Resolve one Python slice endpoint against axis length `n`. -/
def pyIdx (n : ℕ) (i : ℤ) : ℕ :=
  if i < 0 then ((n : ℤ) + i).toNat else min i.toNat n

/-- The `(start, stop)` index pair selected by the Python slice `a[i:j]`. -/
def pySlice (n : ℕ) (i j : ℤ) : ℕ × ℕ := (pyIdx n i, pyIdx n j)

/-- Number of voxels a resolved slice selects (`max 0 (stop - start)`). -/
def sliceLen (s : ℕ × ℕ) : ℕ := s.2 - s.1

/-- `int((t - p)/2)`: the per-axis crop border computed by `score_prediction`
(truncation toward zero, exactly Python `int()` on the halved difference). -/
def cropBorder (t p : ℕ) : ℤ := Int.tdiv ((t : ℤ) - (p : ℤ)) 2

/-- The index range of `target[b:-b]` on one axis of length `t`, with
`b = cropBorder t p`. -/
def gtRegionAxis (t p : ℕ) : ℕ × ℕ :=
  pySlice t (cropBorder t p) (-(cropBorder t p))

/-- A 3D shape in voxels, axes ordered (z, y, x). -/
abbrev Shape3 : Type := ℕ × ℕ × ℕ

/-- The per-axis index ranges of the ground-truth data actually used by
`score_prediction` (lines 42–55): the full array when shapes match, the
`target[b0:-b0, b1:-b1, b2:-b2]` crop otherwise. -/
def gtRegion (tShape pShape : Shape3) : (ℕ × ℕ) × (ℕ × ℕ) × (ℕ × ℕ) :=
  if tShape = pShape then
    ((0, tShape.1), (0, tShape.2.1), (0, tShape.2.2))
  else
    (gtRegionAxis tShape.1 pShape.1,
     gtRegionAxis tShape.2.1 pShape.2.1,
     gtRegionAxis tShape.2.2 pShape.2.2)

/-- The shape of the (possibly cropped) ground-truth array `gt_data`. -/
def gtRegionShape (tShape pShape : Shape3) : Shape3 :=
  (sliceLen (gtRegion tShape pShape).1,
   sliceLen (gtRegion tShape pShape).2.1,
   sliceLen (gtRegion tShape pShape).2.2)

/-! ### Floating-point values with the NaN sentinel -/

/-- A Python float as used in the scoring code: either `np.nan` or a finite
value (held exactly as a rational). -/
inductive EFloat : Type where
  | nan : EFloat
  | val : ℚ → EFloat
deriving DecidableEq

/-- IEEE addition restricted to the reachable domain: NaN absorbs. -/
def EFloat.add : EFloat → EFloat → EFloat
  | .val a, .val b => .val (a + b)
  | _, _ => .nan

/-- IEEE multiplication restricted to the reachable domain: NaN absorbs. -/
def EFloat.mul : EFloat → EFloat → EFloat
  | .val a, .val b => .val (a * b)
  | _, _ => .nan

/-- IEEE division restricted to the reachable domain: NaN absorbs.  Every
division performed by the embedded code is guarded so that the divisor is a
finite nonzero value. -/
def EFloat.div : EFloat → EFloat → EFloat
  | .val a, .val b => .val (a / b)
  | _, _ => .nan

/-- The comparison `x > 0` on Python floats: false when `x` is NaN. -/
def EFloat.gtZero : EFloat → Bool
  | .nan => false
  | .val q => decide (0 < q)

/-- Python `==` on floats: NaN compares unequal to everything, itself
included. -/
def EFloat.pyEq : EFloat → EFloat → Bool
  | .val a, .val b => decide (a = b)
  | _, _ => false

/-! ### np.unique and the label set -/

/-- Insert a value into a strictly sorted list, keeping it sorted and
duplicate-free. -/
def insertSorted (a : ℤ) : List ℤ → List ℤ
  | [] => [a]
  | b :: t =>
    if a < b then a :: b :: t
    else if a = b then b :: t
    else b :: insertSorted a t

/-- `np.unique`: the sorted list of distinct values of an array, here taken
over the flattened voxel values. -/
def uniqueSorted (l : List ℤ) : List ℤ := l.foldr insertSorted []

/-- Lines 59–68 of `score_prediction.py`: `label_ids = np.unique(gt_data)`,
then `label_ids = label_ids[label_ids != background_label]` when the
`background_label` attribute is not `None`. -/
def labelIds (gtData : List ℤ) (background_label : Option ℤ) : List ℤ :=
  match background_label with
  | none => uniqueSorted gtData
  | some b => (uniqueSorted gtData).filter (fun x => x ≠ b)

/-! ### Per-label scores (lines 80–107) -/

/-- The per-label `(tp, fp, fn)` counts returned by
`funlib.evaluate.detection_scores` (an external collaborator, abstracted as
an oracle from label to counts). -/
structure Counts : Type where
  tp : ℕ
  fp : ℕ
  fn : ℕ
deriving DecidableEq

/-- `precision = tp/(tp+fp) if tp+fp > 0 else np.nan`. -/
def precisionOf (tp fp : ℕ) : EFloat :=
  if 0 < tp + fp then .val ((tp : ℚ) / ((tp : ℚ) + (fp : ℚ))) else .nan

/-- `recall = tp/(tp+fn) if tp+fn > 0 else np.nan`. -/
def recallOf (tp fn : ℕ) : EFloat :=
  if 0 < tp + fn then .val ((tp : ℚ) / ((tp : ℚ) + (fn : ℚ))) else .nan

/-- `fscore = 2*(precision*recall)/(precision+recall) if precision+recall > 0
else np.nan`; a NaN operand makes the comparison false. -/
def fscoreOf (p r : EFloat) : EFloat :=
  if (p.add r).gtZero then
    ((EFloat.val 2).mul (p.mul r)).div (p.add r)
  else .nan

/-- The keys of the returned score dictionary, modelling the f-strings
`f'precision_{label}'`, `f'recall_{label}'`, `f'fscore_{label}'`,
`'precision_average'`, `'recall_average'`, `'fscore_average'` (the label
renders injectively, so distinct labels give distinct keys and no per-label
key collides with an average key). -/
inductive ScoreKey : Type where
  | precision (label : ℤ) : ScoreKey
  | recall (label : ℤ) : ScoreKey
  | fscore (label : ℤ) : ScoreKey
  | precisionAvg : ScoreKey
  | recallAvg : ScoreKey
  | fscoreAvg : ScoreKey
deriving DecidableEq

/-- The three dictionary entries stored for one label in the scoring loop. -/
def labelEntries (l : ℤ) (c : Counts) : List (ScoreKey × EFloat) :=
  [(ScoreKey.precision l, precisionOf c.tp c.fp),
   (ScoreKey.recall l, recallOf c.tp c.fn),
   (ScoreKey.fscore l, fscoreOf (precisionOf c.tp c.fp) (recallOf c.tp c.fn))]

/-- All per-label entries, in label order. -/
def reportEntries (ids : List ℤ) (counts : ℤ → Counts) : List (ScoreKey × EFloat) :=
  ids.flatMap (fun l => labelEntries l (counts l))

/-- `precision_total`: the running float sum accumulated by `+=` starting
from `0.0`. -/
def efSum (xs : List EFloat) : EFloat := xs.foldl EFloat.add (EFloat.val 0)

/-- The per-label precision values in label order, as computed. -/
def precList (ids : List ℤ) (counts : ℤ → Counts) : List EFloat :=
  ids.map (fun l => precisionOf (counts l).tp (counts l).fp)

/-- The per-label recall values in label order, as computed. -/
def recList (ids : List ℤ) (counts : ℤ → Counts) : List EFloat :=
  ids.map (fun l => recallOf (counts l).tp (counts l).fn)

/-- The per-label fscore values in label order, as computed. -/
def fscList (ids : List ℤ) (counts : ℤ → Counts) : List EFloat :=
  ids.map (fun l =>
    fscoreOf (precisionOf (counts l).tp (counts l).fp)
             (recallOf (counts l).tp (counts l).fn))

/-- Lines 114–117: the `*_average` entries, emitted only when
`label_ids.size >= 1`. -/
def averageEntries (ids : List ℤ) (counts : ℤ → Counts) : List (ScoreKey × EFloat) :=
  if 1 ≤ ids.length then
    [(ScoreKey.precisionAvg, (efSum (precList ids counts)).div (.val ids.length)),
     (ScoreKey.recallAvg, (efSum (recList ids counts)).div (.val ids.length)),
     (ScoreKey.fscoreAvg, (efSum (fscList ids counts)).div (.val ids.length))]
  else []

/-- The score dictionary built by `score_prediction` once the background
label has been read: per-label entries in loop order followed by the average
entries. -/
def scoreReport (gtData : List ℤ) (background_label : Option ℤ)
    (counts : ℤ → Counts) : List (ScoreKey × EFloat) :=
  reportEntries (labelIds gtData background_label) counts ++
    averageEntries (labelIds gtData background_label) counts

/-- Line 39: `background_label = target.attrs['background_label']`.  The
attribute entry is `none` when absent (the lookup raises `KeyError`) and
`some v` when present, where `v = none` models a stored JSON `null`
(Python `None`). -/
def score_prediction (gtData : List ℤ) (backgroundAttr : Option (Option ℤ))
    (counts : ℤ → Counts) : Except String (List (ScoreKey × EFloat)) :=
  match backgroundAttr with
  | none => .error "KeyError: background_label"
  | some background_label => .ok (scoreReport gtData background_label counts)

/-! ### Shape resolution and tiled prediction (`src/processing/predict.py`) -/

/-- A gunpowder `Coordinate`: a 3-tuple with element-wise arithmetic, used
both for voxel counts and for world-unit sizes. -/
abbrev Coord : Type := ℤ × ℤ × ℤ

/-- Element-wise product of two coordinates (`voxel_size * shape`). -/
def coordMul (a b : Coord) : Coord :=
  (a.1 * b.1, a.2.1 * b.2.1, a.2.2 * b.2.2)

/-- Element-wise difference of two coordinates. -/
def coordSub (a b : Coord) : Coord :=
  (a.1 - b.1, a.2.1 - b.2.1, a.2.2 - b.2.2)

/-- Scaling of a coordinate by an integer (`border_size*2`). -/
def coordScale (a : Coord) (k : ℤ) : Coord :=
  (a.1 * k, a.2.1 * k, a.2.2 * k)

/-- Failures of shape resolution. -/
inductive ShapeError : Type where
  | modelFailure : ShapeError
  | nonPositiveOutput : ShapeError
  | oddDifference : ShapeError
deriving DecidableEq

/-- Modelled from the spec: `UnetOutputShape` (imported by `predict.py` from
`src/model/model.py`, which is not part of this tree).  Spec §4.1: given the
model's shape-transformation function and a requested input shape it returns
the output shape and the per-axis border `(input_shape - output_shape)/2`;
it fails with a `ShapeError` when the shape function raises (modelled as
`none`), when some output extent is non-positive, or when some per-axis
difference is odd (spec §8: never silently floored or rounded). -/
def UnetOutputShape (shapeFn : Coord → Option Coord) (input_shape : Coord) :
    Except ShapeError (Coord × Coord) :=
  match shapeFn input_shape with
  | none => .error .modelFailure
  | some out =>
    if out.1 ≤ 0 ∨ out.2.1 ≤ 0 ∨ out.2.2 ≤ 0 then
      .error .nonPositiveOutput
    else if (input_shape.1 - out.1) % 2 ≠ 0 ∨ (input_shape.2.1 - out.2.1) % 2 ≠ 0 ∨
        (input_shape.2.2 - out.2.2) % 2 ≠ 0 then
      .error .oddDifference
    else
      .ok (out,
        ((input_shape.1 - out.1) / 2,
         (input_shape.2.1 - out.2.1) / 2,
         (input_shape.2.2 - out.2.2) / 2))

/-- Lines 38–54 of `predict.py`: per axis, the predict shape is the input
shape when `input_shape[k] >= raw_data.shape[k]` and the raw shape
otherwise. -/
def predictShape (input_shape raw_shape : Coord) : Coord :=
  ((if input_shape.1 ≥ raw_shape.1 then input_shape.1 else raw_shape.1),
   (if input_shape.2.1 ≥ raw_shape.2.1 then input_shape.2.1 else raw_shape.2.1),
   (if input_shape.2.2 ≥ raw_shape.2.2 then input_shape.2.2 else raw_shape.2.2))

/-- `Prediction.__init__` (lines 30–54): resolve the model's output shape and
border first — any `ShapeError` propagates before a predict shape exists or
any tile is scanned — then derive the predict shape. -/
def predictionInit (shapeFn : Coord → Option Coord)
    (input_shape raw_shape : Coord) :
    Except ShapeError ((Coord × Coord) × Coord) :=
  match UnetOutputShape shapeFn input_shape with
  | .error e => .error e
  | .ok ob => .ok (ob, predictShape input_shape raw_shape)

/-- `Prediction.predict_pipeline` (lines 119–121): the size of the requested
prediction region, `total_request.add(prediction, predict_size -
border_size*2)`, where `predict_size = voxel_size * predict_shape` and
`border_size = voxel_size * border`. -/
def predictionRequestSize (voxel_size predict_shape border : Coord) : Coord :=
  coordSub (coordMul voxel_size predict_shape)
           (coordScale (coordMul voxel_size border) 2)

/-! ### Data-loader attribute checks (`src/data_loader.py`, lines 150–183) -/

/-- A zarr attribute value: a number, a list of numbers (`resolution`), a
list of strings (`axes`), or JSON `null`. -/
inductive AttrVal : Type where
  | num (n : ℤ) : AttrVal
  | numList (l : List ℤ) : AttrVal
  | strList (l : List String) : AttrVal
  | null : AttrVal
deriving DecidableEq

/-- A zarr attribute mapping (`.zattrs`). -/
abbrev Attrs : Type := List (String × AttrVal)

/-- The data mode selected by `train_validate_predict`. -/
inductive Mode : Type where
  | train : Mode
  | validate : Mode
  | predict : Mode
deriving DecidableEq

/-- Lines 168–175: `for atr in raw.attrs: if atr in gt.attrs: if values
differ: raise ValueError`. -/
def checkAttrMatch (rawAttrs gtAttrs : Attrs) : Except String Unit :=
  match rawAttrs with
  | [] => .ok ()
  | (k, v) :: rest =>
    match gtAttrs.lookup k with
    | some w =>
      if v ≠ w then .error (k ++ " of raw and gt data does not match.")
      else checkAttrMatch rest gtAttrs
    | none => checkAttrMatch rest gtAttrs

/-- `EMData.__init__` attribute validation (lines 150–183): require a
`resolution` attribute, require an `axes` attribute equal to
`['z','y','x']`, and in train/validate mode require every attribute shared
by raw and ground truth to agree; on success return the resolution and axes
values used to build `voxel_size`. -/
def emdataInitChecks (mode : Mode) (rawAttrs gtAttrs : Attrs) :
    Except String (AttrVal × AttrVal) :=
  match rawAttrs.lookup "resolution" with
  | none => .error "raw data requires resolution attribute."
  | some res =>
    match rawAttrs.lookup "axes" with
    | none => .error "raw data requires axes attribute with orientation [z,y,x]."
    | some ax =>
      if ax = AttrVal.strList ["z", "y", "x"] then
        if mode = Mode.train ∨ mode = Mode.validate then
          match checkAttrMatch rawAttrs gtAttrs with
          | .error e => .error e
          | .ok _ => .ok (res, ax)
        else .ok (res, ax)
      else .error "Axes must be [z,y,x]."

/-- Whether a fallible computation succeeded. -/
def exceptOk {ε α : Type} : Except ε α → Bool
  | .ok _ => true
  | .error _ => false

/-! ### The no-prediction guard (`run.py`, lines 300–311) -/

/-- The two branches following training in `run.py`. -/
inductive RunOutcome : Type where
  | noPrediction : RunOutcome
  | saveRun : RunOutcome
deriving DecidableEq

/-- `run.best_score[0] == 0 or run.best_score[0] == np.nan`. -/
def noPredictionGuard (best_score : EFloat) : Bool :=
  best_score.pyEq (.val 0) || best_score.pyEq .nan

/-- Lines 300–311: print "No prediction obtained" when the guard holds,
otherwise proceed to `run.save_run`. -/
def finalBranch (best_score : EFloat) : RunOutcome :=
  if noPredictionGuard best_score then .noPrediction else .saveRun

/-! ### Helper lemmas -/

/-- `Int.tdiv` by two on a natural-number cast is natural division by
two. -/
theorem tdiv_natCast (a : ℕ) : Int.tdiv (a : ℤ) 2 = ((a / 2 : ℕ) : ℤ) := rfl

theorem mem_insertSorted {x a : ℤ} {l : List ℤ} :
    x ∈ insertSorted a l ↔ x = a ∨ x ∈ l := by
  induction l with
  | nil => simp [insertSorted]
  | cons b t ih =>
    by_cases h1 : a < b
    · simp [insertSorted, h1]
    · by_cases h2 : a = b
      · subst h2
        simp [insertSorted, h1]
      · simp [insertSorted, h1, h2, ih]
        tauto

theorem pairwise_insertSorted {a : ℤ} {l : List ℤ}
    (h : l.Pairwise (· < ·)) : (insertSorted a l).Pairwise (· < ·) := by
  induction l with
  | nil => simp [insertSorted]
  | cons b t ih =>
    rw [List.pairwise_cons] at h
    by_cases h1 : a < b
    · rw [insertSorted, if_pos h1, List.pairwise_cons]
      refine ⟨?_, List.pairwise_cons.2 h⟩
      intro y hy
      rcases List.mem_cons.1 hy with hy | hy
      · exact hy ▸ h1
      · exact h1.trans (h.1 y hy)
    · by_cases h2 : a = b
      · subst h2
        rw [insertSorted, if_neg h1, if_pos rfl]
        exact List.pairwise_cons.2 h
      · have hba : b < a := by omega
        rw [insertSorted, if_neg h1, if_neg h2, List.pairwise_cons]
        refine ⟨?_, ih h.2⟩
        intro y hy
        rcases mem_insertSorted.1 hy with hy | hy
        · exact hy ▸ hba
        · exact h.1 y hy

theorem mem_uniqueSorted {x : ℤ} {l : List ℤ} :
    x ∈ uniqueSorted l ↔ x ∈ l := by
  induction l with
  | nil => simp [uniqueSorted]
  | cons b t ih =>
    rw [uniqueSorted, List.foldr_cons]
    rw [uniqueSorted] at ih
    rw [mem_insertSorted, ih, List.mem_cons]

theorem pairwise_uniqueSorted (l : List ℤ) :
    (uniqueSorted l).Pairwise (· < ·) := by
  induction l with
  | nil => simp [uniqueSorted]
  | cons b t ih =>
    rw [uniqueSorted, List.foldr_cons]
    exact pairwise_insertSorted ih

theorem mem_labelIds {x : ℤ} {gt : List ℤ} {bg : ℤ} :
    x ∈ labelIds gt (some bg) ↔ x ∈ gt ∧ x ≠ bg := by
  rw [labelIds, List.mem_filter, mem_uniqueSorted]
  simp

/-- Once the accumulator of the running total is NaN it stays NaN. -/
theorem foldl_add_nan (xs : List EFloat) :
    xs.foldl EFloat.add EFloat.nan = EFloat.nan := by
  induction xs with
  | nil => rfl
  | cons y ys ih =>
    rw [List.foldl_cons]
    have : EFloat.add EFloat.nan y = EFloat.nan := by cases y <;> rfl
    rw [this, ih]

/-- A NaN summand contaminates the running total. -/
theorem efSum_of_nan_mem {xs : List EFloat} (h : EFloat.nan ∈ xs) :
    efSum xs = EFloat.nan := by
  rw [efSum]
  generalize EFloat.val 0 = a
  induction xs generalizing a with
  | nil => cases h
  | cons y ys ih =>
    rcases List.mem_cons.1 h with hy | hy
    · rw [List.foldl_cons, ← hy]
      have : EFloat.add a EFloat.nan = EFloat.nan := by cases a <;> rfl
      rw [this, foldl_add_nan]
    · rw [List.foldl_cons]
      exact ih hy _

/-- With no NaN present the running total is the exact rational sum. -/
theorem efSum_val (qs : List ℚ) :
    efSum (qs.map EFloat.val) = EFloat.val qs.sum := by
  rw [efSum]
  have main : ∀ (l : List ℚ) (a : ℚ),
      (l.map EFloat.val).foldl EFloat.add (EFloat.val a) = EFloat.val (a + l.sum) := by
    intro l
    induction l with
    | nil => intro a; simp [EFloat.add]
    | cons q l ih =>
      intro a
      rw [List.map_cons, List.foldl_cons]
      show (l.map EFloat.val).foldl EFloat.add (EFloat.val (a + q)) = _
      rw [ih (a + q), List.sum_cons]
      ring_nf
  rw [main qs 0, zero_add]

/-- Every key of a per-label entry is a per-label constructor. -/
theorem reportEntries_key_shape {k : ScoreKey} {v : EFloat}
    {ids : List ℤ} {counts : ℤ → Counts}
    (h : (k, v) ∈ reportEntries ids counts) :
    ∃ l, k = ScoreKey.precision l ∨ k = ScoreKey.recall l ∨ k = ScoreKey.fscore l := by
  rw [reportEntries, List.mem_flatMap] at h
  obtain ⟨l, _, hmem⟩ := h
  refine ⟨l, ?_⟩
  simp only [labelEntries, List.mem_cons, List.mem_singleton] at hmem
  rcases hmem with h | h | h | h
  · exact Or.inl (congrArg Prod.fst h)
  · exact Or.inr (Or.inl (congrArg Prod.fst h))
  · exact Or.inr (Or.inr (congrArg Prod.fst h))
  · cases h

/-- The key list of the per-label entries, as a function of the label ids
alone. -/
theorem reportEntries_keys (ids : List ℤ) (counts : ℤ → Counts) :
    (reportEntries ids counts).map Prod.fst =
      ids.flatMap (fun l => [ScoreKey.precision l, ScoreKey.recall l, ScoreKey.fscore l]) := by
  induction ids with
  | nil => rfl
  | cons l t ih =>
    rw [reportEntries, List.flatMap_cons, List.map_append, List.flatMap_cons]
    rw [reportEntries] at ih
    rw [ih]
    rfl

/-- The key list of the average entries, as a function of the label count
alone. -/
theorem averageEntries_keys (ids : List ℤ) (counts : ℤ → Counts) :
    (averageEntries ids counts).map Prod.fst =
      if 1 ≤ ids.length then
        [ScoreKey.precisionAvg, ScoreKey.recallAvg, ScoreKey.fscoreAvg]
      else [] := by
  rw [averageEntries]
  split <;> rfl

/-- Unfolding of `UnetOutputShape` when the shape function returns a
shape. -/
theorem UnetOutputShape_some (sf : Coord → Option Coord) (i o : Coord)
    (h : sf i = some o) :
    UnetOutputShape sf i =
      if o.1 ≤ 0 ∨ o.2.1 ≤ 0 ∨ o.2.2 ≤ 0 then .error .nonPositiveOutput
      else if (i.1 - o.1) % 2 ≠ 0 ∨ (i.2.1 - o.2.1) % 2 ≠ 0 ∨
          (i.2.2 - o.2.2) % 2 ≠ 0 then
        .error .oddDifference
      else .ok (o, ((i.1 - o.1) / 2, (i.2.1 - o.2.1) / 2, (i.2.2 - o.2.2) / 2)) := by
  rw [UnetOutputShape, h]

/-- Unfolding of `emdataInitChecks` when both required attributes are
present. -/
theorem emdataInitChecks_eq (mode : Mode) (rawAttrs gtAttrs : Attrs)
    (res ax : AttrVal)
    (hres : rawAttrs.lookup "resolution" = some res)
    (hax : rawAttrs.lookup "axes" = some ax) :
    emdataInitChecks mode rawAttrs gtAttrs =
      if ax = AttrVal.strList ["z", "y", "x"] then
        if mode = Mode.train ∨ mode = Mode.validate then
          match checkAttrMatch rawAttrs gtAttrs with
          | .error e => .error e
          | .ok _ => .ok (res, ax)
        else .ok (res, ax)
      else .error "Axes must be [z,y,x]." := by
  rw [emdataInitChecks, hres, hax]

/-- A mismatching shared attribute makes the attribute-match check fail. -/
theorem checkAttrMatch_error {rawAttrs gtAttrs : Attrs} {k : String} {v w : AttrVal}
    (hm : (k, v) ∈ rawAttrs) (hg : gtAttrs.lookup k = some w) (hne : v ≠ w) :
    exceptOk (checkAttrMatch rawAttrs gtAttrs) = false := by
  induction rawAttrs with
  | nil => cases hm
  | cons hd rest ih =>
    obtain ⟨k2, v2⟩ := hd
    rcases List.mem_cons.1 hm with heq | hmem
    · obtain ⟨hk, hv⟩ := Prod.mk.injEq .. ▸ heq
      subst hk hv
      simp [checkAttrMatch, hg, hne, exceptOk]
    · rw [checkAttrMatch]
      cases hl : gtAttrs.lookup k2 with
      | none => exact ih hmem
      | some w2 =>
        by_cases hv : v2 ≠ w2
        · simp [hv, exceptOk]
        · simp only [hv, if_neg, ite_false, reduceIte]
          exact ih hmem

/-- Membership of per-label keys in the report is exactly membership in the
label-id list, for all three key families. -/
theorem key_mem_scoreReport (gt : List ℤ) (obg : Option ℤ) (c : ℤ → Counts) (l : ℤ) :
    (ScoreKey.precision l ∈ (scoreReport gt obg c).map Prod.fst ↔
      l ∈ labelIds gt obg) ∧
    (ScoreKey.recall l ∈ (scoreReport gt obg c).map Prod.fst ↔
      l ∈ labelIds gt obg) ∧
    (ScoreKey.fscore l ∈ (scoreReport gt obg c).map Prod.fst ↔
      l ∈ labelIds gt obg) := by
  rw [scoreReport, List.map_append, reportEntries_keys, averageEntries_keys]
  refine ⟨?_, ?_, ?_⟩ <;>
  · rw [List.mem_append]
    constructor
    · rintro (h | h)
      · simp only [List.mem_flatMap, List.mem_cons, List.not_mem_nil, or_false] at h
        obtain ⟨a, ha, h⟩ := h
        rcases h with h | h | h <;> first | (cases h; exact ha) | (cases h)
      · split at h <;> simp at h
    · intro hl
      exact Or.inl (List.mem_flatMap.2 ⟨l, hl, by simp⟩)

/-! ### Claim theorems -/

/-- C5: for every input shape and source volume, the predict shape of
`Prediction.__init__` is, per axis, the maximum of the model input shape and
the volume shape, and in particular is never smaller than one full model
input tile. -/
theorem claim_C5 (input_shape raw_shape : Coord) :
    predictShape input_shape raw_shape =
      (max input_shape.1 raw_shape.1,
       max input_shape.2.1 raw_shape.2.1,
       max input_shape.2.2 raw_shape.2.2) ∧
    input_shape.1 ≤ (predictShape input_shape raw_shape).1 ∧
    input_shape.2.1 ≤ (predictShape input_shape raw_shape).2.1 ∧
    input_shape.2.2 ≤ (predictShape input_shape raw_shape).2.2 := by
  unfold predictShape
  refine ⟨?_, ?_, ?_, ?_⟩
  · simp only [Prod.mk.injEq]
    refine ⟨?_, ?_, ?_⟩ <;> (split <;> omega)
  all_goals (dsimp only; split <;> omega)

/-- C6: the prediction region requested by `predict_pipeline` is exactly
`voxel_size * (predict_shape - 2*border)`, i.e. it covers
`predict_shape - 2*border` voxels per axis; for a (10,10,10) volume with
input shape (10,10,10) and output shape (6,6,6) (border (2,2,2)) the predict
shape is (10,10,10) and the final prediction covers (6,6,6) voxels. -/
theorem claim_C6 :
    (∀ voxel_size predict_shape border : Coord,
      predictionRequestSize voxel_size predict_shape border =
        coordMul voxel_size (coordSub predict_shape (coordScale border 2))) ∧
    predictShape (10, 10, 10) (10, 10, 10) = (10, 10, 10) ∧
    UnetOutputShape (fun s => some (s.1 - 4, s.2.1 - 4, s.2.2 - 4)) (10, 10, 10) =
      .ok ((6, 6, 6), (2, 2, 2)) ∧
    coordSub (10, 10, 10) (coordScale (2, 2, 2) 2) = (6, 6, 6) := by
  refine ⟨?_, by decide, rfl, by decide⟩
  intro v P B
  unfold predictionRequestSize coordMul coordSub coordScale
  simp only [Prod.mk.injEq]
  refine ⟨?_, ?_, ?_⟩ <;> ring

/-- C10: the guard `best_score[0] == 0 or best_score[0] == np.nan` in
`run.py` is equivalent to `best_score[0] == 0` for every float value, since
NaN compares unequal to everything including `np.nan`; hence a NaN best
score skips the "No prediction obtained" branch and proceeds to
`save_run`. -/
theorem claim_C10 :
    (∀ s : EFloat, noPredictionGuard s = s.pyEq (.val 0)) ∧
    noPredictionGuard EFloat.nan = false ∧
    finalBranch EFloat.nan = RunOutcome.saveRun := by
  refine ⟨?_, rfl, rfl⟩
  intro s
  cases s <;> simp [noPredictionGuard, EFloat.pyEq]

/-- C2: per label, `score_prediction` computes `precision = tp/(tp+fp)` when
`tp+fp > 0` and NaN otherwise, `recall = tp/(tp+fn)` when `tp+fn > 0` and
NaN otherwise, and `fscore = 2*precision*recall/(precision+recall)` when
`precision + recall > 0` (a NaN operand making the comparison false) and NaN
otherwise; in particular `tp = 0, fp = 0, fn > 0` gives NaN precision and
recall `0.0`. -/
theorem claim_C2 (tp fp fn : ℕ) (p r : EFloat) :
    (0 < tp + fp → precisionOf tp fp = .val ((tp : ℚ) / ((tp : ℚ) + (fp : ℚ)))) ∧
    (tp + fp = 0 → precisionOf tp fp = .nan) ∧
    (0 < tp + fn → recallOf tp fn = .val ((tp : ℚ) / ((tp : ℚ) + (fn : ℚ)))) ∧
    (tp + fn = 0 → recallOf tp fn = .nan) ∧
    ((p.add r).gtZero = true →
      fscoreOf p r = ((EFloat.val 2).mul (p.mul r)).div (p.add r)) ∧
    ((p.add r).gtZero = false → fscoreOf p r = .nan) ∧
    fscoreOf EFloat.nan r = .nan ∧
    fscoreOf p EFloat.nan = .nan ∧
    precisionOf 0 0 = .nan ∧
    (0 < fn → recallOf 0 fn = .val 0) := by
  refine ⟨?_, ?_, ?_, ?_, ?_, ?_, ?_, ?_, rfl, ?_⟩
  · intro h; rw [precisionOf, if_pos h]
  · intro h; rw [precisionOf, if_neg (by omega)]
  · intro h; rw [recallOf, if_pos h]
  · intro h; rw [recallOf, if_neg (by omega)]
  · intro h; rw [fscoreOf, if_pos (by simp [h])]
  · intro h; rw [fscoreOf, if_neg (by simp [h])]
  · have : (EFloat.nan.add r).gtZero = false := by cases r <;> rfl
    rw [fscoreOf, if_neg (by simp [this])]
  · have : (p.add EFloat.nan).gtZero = false := by cases p <;> rfl
    rw [fscoreOf, if_neg (by simp [this])]
  · intro h
    rw [recallOf, if_pos (by omega)]
    simp

/-- Witness for C2 at `tp = 1, fp = 1, fn = 3` and a NaN precision
operand. -/
theorem claim_C2_witness :
    (0 < 1 + 1 ∧ precisionOf 1 1 = .val ((1 : ℚ) / ((1 : ℚ) + (1 : ℚ)))) ∧
    (0 < (3 : ℕ) ∧ recallOf 0 3 = .val 0) ∧
    precisionOf 0 0 = .nan ∧
    fscoreOf EFloat.nan (.val 1) = .nan := by
  have h := claim_C2 1 1 3 EFloat.nan (.val 1)
  exact ⟨⟨by decide, h.1 (by decide)⟩,
         ⟨by decide, h.2.2.2.2.2.2.2.2.2 (by decide)⟩,
         h.2.2.2.2.2.2.2.2.1,
         h.2.2.2.2.2.2.1⟩

/-- C7: shape resolution fails with a `ShapeError` — before any tile is
scanned — when the model's shape function raises, when some output extent is
non-positive, or when some per-axis input/output difference is odd; a
successful resolution satisfies `input - output = 2 * border` exactly on
every axis, so an odd difference is never silently floored. -/
theorem claim_C7 (sf : Coord → Option Coord) (i : Coord) :
    (sf i = none → UnetOutputShape sf i = .error .modelFailure) ∧
    (∀ o, sf i = some o → (o.1 ≤ 0 ∨ o.2.1 ≤ 0 ∨ o.2.2 ≤ 0) →
      UnetOutputShape sf i = .error .nonPositiveOutput) ∧
    (∀ o, sf i = some o → ¬(o.1 ≤ 0 ∨ o.2.1 ≤ 0 ∨ o.2.2 ≤ 0) →
      ((i.1 - o.1) % 2 ≠ 0 ∨ (i.2.1 - o.2.1) % 2 ≠ 0 ∨ (i.2.2 - o.2.2) % 2 ≠ 0) →
      UnetOutputShape sf i = .error .oddDifference) ∧
    (∀ o b, UnetOutputShape sf i = .ok (o, b) →
      i.1 - o.1 = 2 * b.1 ∧ i.2.1 - o.2.1 = 2 * b.2.1 ∧
        i.2.2 - o.2.2 = 2 * b.2.2) ∧
    (∀ e raw_shape, UnetOutputShape sf i = .error e →
      predictionInit sf i raw_shape = .error e) := by
  refine ⟨?_, ?_, ?_, ?_, ?_⟩
  · intro h; rw [UnetOutputShape, h]
  · intro o ho hbad
    rw [UnetOutputShape, ho]
    simp only [if_pos hbad]
  · intro o ho hpos hodd
    rw [UnetOutputShape, ho]
    simp only [if_neg hpos, if_pos hodd]
  · intro o b hok
    cases hsf : sf i with
    | none => rw [UnetOutputShape, hsf] at hok; cases hok
    | some o2 =>
      rw [UnetOutputShape_some sf i o2 hsf] at hok
      by_cases h1 : o2.1 ≤ 0 ∨ o2.2.1 ≤ 0 ∨ o2.2.2 ≤ 0
      · rw [if_pos h1] at hok; cases hok
      · rw [if_neg h1] at hok
        by_cases h2 : (i.1 - o2.1) % 2 ≠ 0 ∨ (i.2.1 - o2.2.1) % 2 ≠ 0 ∨
            (i.2.2 - o2.2.2) % 2 ≠ 0
        · rw [if_pos h2] at hok; cases hok
        · rw [if_neg h2] at hok
          obtain ⟨ho, hb⟩ := Prod.mk.injEq .. ▸ Except.ok.injEq .. ▸ hok
          subst ho hb
          push_neg at h2
          dsimp only
          refine ⟨?_, ?_, ?_⟩ <;> omega
  · intro e raw_shape herr
    rw [predictionInit, herr]

/-- Witness for C7: a shape function that loses 4 voxels per axis, applied
at input (10,11,12) (odd difference never arises), at (4,4,4) (non-positive
output), and a raising shape function. -/
theorem claim_C7_witness :
    ((fun (_ : Coord) => (none : Option Coord)) (10, 10, 10) = none →
      UnetOutputShape (fun _ => none) (10, 10, 10) = .error .modelFailure) ∧
    UnetOutputShape (fun _ => none) (10, 10, 10) = .error .modelFailure ∧
    UnetOutputShape (fun s => some (s.1 - 4, s.2.1 - 4, s.2.2 - 4)) (4, 4, 4) =
      .error .nonPositiveOutput ∧
    UnetOutputShape (fun s => some (s.1 - 3, s.2.1 - 4, s.2.2 - 4)) (10, 10, 10) =
      .error .oddDifference ∧
    ((10 : ℤ), (10 : ℤ), (10 : ℤ)).1 - ((6 : ℤ), (6 : ℤ), (6 : ℤ)).1 = 2 * ((2 : ℤ), (2 : ℤ), (2 : ℤ)).1 ∧
    predictionInit (fun _ => none) (10, 10, 10) (5, 5, 5) = .error .modelFailure := by
  refine ⟨(claim_C7 (fun _ => none) (10, 10, 10)).1, ?_, ?_, ?_, ?_, ?_⟩
  · exact (claim_C7 (fun _ => none) (10, 10, 10)).1 rfl
  · exact (claim_C7 (fun s => some (s.1 - 4, s.2.1 - 4, s.2.2 - 4)) (4, 4, 4)).2.1
      (4 - 4, 4 - 4, 4 - 4) rfl (by decide)
  · exact (claim_C7 (fun s => some (s.1 - 3, s.2.1 - 4, s.2.2 - 4)) (10, 10, 10)).2.2.1
      (10 - 3, 10 - 4, 10 - 4) rfl (by decide) (by decide)
  · exact ((claim_C7 (fun s => some (s.1 - 4, s.2.1 - 4, s.2.2 - 4)) (10, 10, 10)).2.2.2.1
      (6, 6, 6) (2, 2, 2) (by rfl)).1
  · exact (claim_C7 (fun _ => none) (10, 10, 10)).2.2.2.2 .modelFailure (5, 5, 5)
      ((claim_C7 (fun _ => none) (10, 10, 10)).1 rfl)

/-- C1 counterexample: for ground truth shape (4,5,4) and prediction shape
(4,2,4) the shapes differ, yet the cropped ground truth has shape (0,3,0),
not the prediction's shape (4,2,4): the zero border on the z and x axes
turns the slice `target[0:-0]` into an empty selection rather than a
zero-voxel crop, and the odd difference 3 on the y axis leaves one extra
voxel. -/
theorem claim_C1_counterexample :
    ((4, 5, 4) : Shape3) ≠ ((4, 2, 4) : Shape3) ∧
    gtRegionShape (4, 5, 4) (4, 2, 4) = (0, 3, 0) ∧
    gtRegionShape (4, 5, 4) (4, 2, 4) ≠ ((4, 2, 4) : Shape3) := by
  refine ⟨by decide, by decide, by decide⟩

/-- C1 (amended): when the two shapes differ and on every axis the
ground-truth extent exceeds the prediction extent by a positive even amount,
the ground truth is center-cropped per axis by `(gt - pred)/2` voxels from
each side and the cropped shape equals the prediction's shape; when the
shapes already match, the full ground truth is used uncropped. -/
theorem claim_C1 (t p : Shape3)
    (hz : p.1 < t.1) (hy : p.2.1 < t.2.1) (hx : p.2.2 < t.2.2)
    (ez : (t.1 - p.1) % 2 = 0) (ey : (t.2.1 - p.2.1) % 2 = 0)
    (ex : (t.2.2 - p.2.2) % 2 = 0) :
    gtRegion t p =
      (((t.1 - p.1) / 2, t.1 - (t.1 - p.1) / 2),
       ((t.2.1 - p.2.1) / 2, t.2.1 - (t.2.1 - p.2.1) / 2),
       ((t.2.2 - p.2.2) / 2, t.2.2 - (t.2.2 - p.2.2) / 2)) ∧
    gtRegionShape t p = p ∧
    ∀ s : Shape3, gtRegion s s = ((0, s.1), (0, s.2.1), (0, s.2.2)) := by
  have axis : ∀ tk pk : ℕ, pk < tk → (tk - pk) % 2 = 0 →
      gtRegionAxis tk pk = ((tk - pk) / 2, tk - (tk - pk) / 2) := by
    intro tk pk h he
    have hcast : (tk : ℤ) - (pk : ℤ) = (((tk - pk : ℕ)) : ℤ) := by omega
    have hb : cropBorder tk pk = (((tk - pk) / 2 : ℕ) : ℤ) := by
      rw [cropBorder, hcast, tdiv_natCast]
    rw [gtRegionAxis, pySlice, hb, pyIdx, pyIdx]
    rw [if_neg (by omega), if_pos (by omega)]
    simp only [Prod.mk.injEq]
    omega
  obtain ⟨t1, t2, t3⟩ := t
  obtain ⟨p1, p2, p3⟩ := p
  dsimp only at hz hy hx ez ey ex ⊢
  have hne : ((t1, t2, t3) : Shape3) ≠ (p1, p2, p3) := by
    intro h
    simp only [Prod.mk.injEq] at h
    omega
  refine ⟨?_, ?_, ?_⟩
  · rw [gtRegion, if_neg hne]
    dsimp only
    rw [axis t1 p1 hz ez, axis t2 p2 hy ey, axis t3 p3 hx ex]
  · rw [gtRegionShape, gtRegion, if_neg hne]
    dsimp only
    rw [axis t1 p1 hz ez, axis t2 p2 hy ey, axis t3 p3 hx ex]
    simp only [sliceLen, Prod.mk.injEq]
    refine ⟨?_, ?_, ?_⟩ <;> omega
  · intro s
    rw [gtRegion, if_pos rfl]

/-- Witness for C1 at ground truth shape (10,10,10) and prediction shape
(6,6,6): border 2 per axis, cropped region [2,8) per axis, cropped shape
(6,6,6). -/
theorem claim_C1_witness :
    ((6 : ℕ) < 10 ∧ (10 - 6) % 2 = 0) ∧
    gtRegion (10, 10, 10) (6, 6, 6) = ((2, 8), (2, 8), (2, 8)) ∧
    gtRegionShape (10, 10, 10) (6, 6, 6) = (6, 6, 6) := by
  have h := claim_C1 (10, 10, 10) (6, 6, 6) (by decide) (by decide) (by decide)
    (by decide) (by decide) (by decide)
  exact ⟨⟨by decide, by decide⟩, h.1, h.2.1⟩

/-- C9: the data-loader constructor fails — before any inference or scoring
can run — whenever the raw data lacks a `resolution` attribute, lacks an
`axes` attribute, has an `axes` attribute different from `['z','y','x']`,
or, in train/validate mode, some attribute shared by the raw and
ground-truth data differs between them. -/
theorem claim_C9 (mode : Mode) (rawAttrs gtAttrs : Attrs) :
    (rawAttrs.lookup "resolution" = none →
      exceptOk (emdataInitChecks mode rawAttrs gtAttrs) = false) ∧
    (rawAttrs.lookup "axes" = none →
      exceptOk (emdataInitChecks mode rawAttrs gtAttrs) = false) ∧
    (∀ ax, rawAttrs.lookup "axes" = some ax →
      ax ≠ AttrVal.strList ["z", "y", "x"] →
      exceptOk (emdataInitChecks mode rawAttrs gtAttrs) = false) ∧
    ((mode = Mode.train ∨ mode = Mode.validate) →
      ∀ k v w, (k, v) ∈ rawAttrs → gtAttrs.lookup k = some w → v ≠ w →
        exceptOk (emdataInitChecks mode rawAttrs gtAttrs) = false) := by
  refine ⟨?_, ?_, ?_, ?_⟩
  · intro h
    rw [emdataInitChecks, h]
    rfl
  · intro h
    rw [emdataInitChecks]
    cases hres : rawAttrs.lookup "resolution" with
    | none => rfl
    | some res => rw [h]; rfl
  · intro ax hax hne
    rw [emdataInitChecks]
    cases hres : rawAttrs.lookup "resolution" with
    | none => rfl
    | some res =>
      rw [hax]
      simp only [if_neg hne]
      rfl
  · intro hmode k v w hk hg hne
    cases hres : rawAttrs.lookup "resolution" with
    | none => rw [emdataInitChecks, hres]; rfl
    | some res =>
      cases hax : rawAttrs.lookup "axes" with
      | none => rw [emdataInitChecks, hres, hax]; rfl
      | some ax =>
        rw [emdataInitChecks_eq mode rawAttrs gtAttrs res ax hres hax]
        by_cases he : ax = AttrVal.strList ["z", "y", "x"]
        · rw [if_pos he, if_pos hmode]
          have hc := checkAttrMatch_error hk hg hne
          cases hcm : checkAttrMatch rawAttrs gtAttrs with
          | error e => rfl
          | ok u =>
            rw [hcm] at hc
            simp [exceptOk] at hc
        · rw [if_neg he]; rfl

/-- Witness for C9: train mode, raw attributes with resolution [1,1,1] and
axes [z,y,x], ground truth with resolution [2,2,2] — the shared `resolution`
attribute differs, so construction fails. -/
theorem claim_C9_witness :
    (Mode.train = Mode.train ∨ Mode.train = Mode.validate) ∧
    ("resolution", AttrVal.numList [1, 1, 1]) ∈
      ([("resolution", AttrVal.numList [1, 1, 1]),
        ("axes", AttrVal.strList ["z", "y", "x"])] : Attrs) ∧
    ([("resolution", AttrVal.numList [2, 2, 2])] : Attrs).lookup "resolution" =
      some (AttrVal.numList [2, 2, 2]) ∧
    AttrVal.numList [1, 1, 1] ≠ AttrVal.numList [2, 2, 2] ∧
    exceptOk (emdataInitChecks Mode.train
      [("resolution", AttrVal.numList [1, 1, 1]),
       ("axes", AttrVal.strList ["z", "y", "x"])]
      [("resolution", AttrVal.numList [2, 2, 2])]) = false := by
  refine ⟨Or.inl rfl, by decide, by decide, by decide, ?_⟩
  exact (claim_C9 Mode.train
      [("resolution", AttrVal.numList [1, 1, 1]),
       ("axes", AttrVal.strList ["z", "y", "x"])]
      [("resolution", AttrVal.numList [2, 2, 2])]).2.2.2
    (Or.inl rfl) "resolution" (AttrVal.numList [1, 1, 1])
    (AttrVal.numList [2, 2, 2]) (by decide) (by decide) (by decide)

/-- C3: with at least one eligible label, `score_prediction` emits
`precision_average`, `recall_average` and `fscore_average` as the running
total of the per-label values divided by the label count — the arithmetic
mean of the values as computed, equal to `sum/len` on the underlying
rationals when no NaN is present — and any NaN per-label value makes the
corresponding average NaN; with zero eligible labels no average key appears
in the report. -/
theorem claim_C3 (gt : List ℤ) (bg : Option ℤ) (counts : ℤ → Counts) :
    (labelIds gt bg ≠ [] →
      (ScoreKey.precisionAvg,
        (efSum (precList (labelIds gt bg) counts)).div
          (.val ((labelIds gt bg).length))) ∈ scoreReport gt bg counts ∧
      (ScoreKey.recallAvg,
        (efSum (recList (labelIds gt bg) counts)).div
          (.val ((labelIds gt bg).length))) ∈ scoreReport gt bg counts ∧
      (ScoreKey.fscoreAvg,
        (efSum (fscList (labelIds gt bg) counts)).div
          (.val ((labelIds gt bg).length))) ∈ scoreReport gt bg counts) ∧
    (∀ qs : List ℚ, precList (labelIds gt bg) counts = qs.map EFloat.val →
      (efSum (precList (labelIds gt bg) counts)).div
          (.val ((labelIds gt bg).length)) =
        .val (qs.sum / (((labelIds gt bg).length : ℚ)))) ∧
    (EFloat.nan ∈ precList (labelIds gt bg) counts →
      (efSum (precList (labelIds gt bg) counts)).div
        (.val ((labelIds gt bg).length)) = .nan) ∧
    (EFloat.nan ∈ recList (labelIds gt bg) counts →
      (efSum (recList (labelIds gt bg) counts)).div
        (.val ((labelIds gt bg).length)) = .nan) ∧
    (EFloat.nan ∈ fscList (labelIds gt bg) counts →
      (efSum (fscList (labelIds gt bg) counts)).div
        (.val ((labelIds gt bg).length)) = .nan) ∧
    (labelIds gt bg = [] →
      ∀ v, (ScoreKey.precisionAvg, v) ∉ scoreReport gt bg counts ∧
           (ScoreKey.recallAvg, v) ∉ scoreReport gt bg counts ∧
           (ScoreKey.fscoreAvg, v) ∉ scoreReport gt bg counts) := by
  refine ⟨?_, ?_, ?_, ?_, ?_, ?_⟩
  · intro h
    have hlen : 1 ≤ (labelIds gt bg).length := by
      cases hin : labelIds gt bg with
      | nil => exact absurd hin h
      | cons a t => simp [hin]
    rw [scoreReport, averageEntries, if_pos hlen]
    refine ⟨?_, ?_, ?_⟩ <;> (apply List.mem_append_right; simp)
  · intro qs hqs
    rw [hqs, efSum_val]
    rfl
  · intro h
    rw [efSum_of_nan_mem h]
    rfl
  · intro h
    rw [efSum_of_nan_mem h]
    rfl
  · intro h
    rw [efSum_of_nan_mem h]
    rfl
  · intro h v
    rw [scoreReport, h]
    refine ⟨?_, ?_, ?_⟩ <;> simp [reportEntries, averageEntries]

/-- Witness for C3: ground truth values [0,1] with background 0 give the
single label 1; with one true positive the precision average entry is
present, and with zero predicted instances the per-label precision is NaN
and the emitted average is NaN. -/
theorem claim_C3_witness :
    labelIds [0, 1] (some 0) ≠ [] ∧
    (ScoreKey.precisionAvg,
      (efSum (precList (labelIds [0, 1] (some 0)) (fun _ => ⟨1, 0, 0⟩))).div
        (.val ((labelIds [0, 1] (some 0)).length))) ∈
      scoreReport [0, 1] (some 0) (fun _ => ⟨1, 0, 0⟩) ∧
    EFloat.nan ∈ precList (labelIds [0, 1] (some 0)) (fun _ => ⟨0, 0, 1⟩) ∧
    (efSum (precList (labelIds [0, 1] (some 0)) (fun _ => ⟨0, 0, 1⟩))).div
      (.val ((labelIds [0, 1] (some 0)).length)) = .nan := by
  refine ⟨by decide, ?_, by decide, ?_⟩
  · exact ((claim_C3 [0, 1] (some 0) (fun _ => ⟨1, 0, 0⟩)).1 (by decide)).1
  · exact (claim_C3 [0, 1] (some 0) (fun _ => ⟨0, 0, 1⟩)).2.2.1 (by decide)

/-- C4: the key set of the report returned by `score_prediction` is
determined by the ground truth alone — identical for any two count oracles,
i.e. for any two predictions — and a per-label key is present exactly when
its label occurs in the (cropped) ground truth and differs from the
background label; the label list itself is strictly sorted (hence a sorted
set of distinct values) and contains exactly the non-background ground-truth
values, so a ground-truth label absent from the prediction still receives
score entries. -/
theorem claim_C4 (gt : List ℤ) (bg : ℤ) (c1 c2 : ℤ → Counts) :
    (scoreReport gt (some bg) c1).map Prod.fst =
      (scoreReport gt (some bg) c2).map Prod.fst ∧
    (∀ l, ScoreKey.precision l ∈ (scoreReport gt (some bg) c1).map Prod.fst ↔
      l ∈ gt ∧ l ≠ bg) ∧
    (∀ l, ScoreKey.recall l ∈ (scoreReport gt (some bg) c1).map Prod.fst ↔
      l ∈ gt ∧ l ≠ bg) ∧
    (∀ l, ScoreKey.fscore l ∈ (scoreReport gt (some bg) c1).map Prod.fst ↔
      l ∈ gt ∧ l ≠ bg) ∧
    (labelIds gt (some bg)).Pairwise (· < ·) ∧
    (∀ l, l ∈ labelIds gt (some bg) ↔ l ∈ gt ∧ l ≠ bg) := by
  refine ⟨?_, ?_, ?_, ?_, ?_, ?_⟩
  · rw [scoreReport, scoreReport, List.map_append, List.map_append,
      reportEntries_keys, reportEntries_keys, averageEntries_keys,
      averageEntries_keys]
  · intro l
    rw [(key_mem_scoreReport gt (some bg) c1 l).1, mem_labelIds]
  · intro l
    rw [(key_mem_scoreReport gt (some bg) c1 l).2.1, mem_labelIds]
  · intro l
    rw [(key_mem_scoreReport gt (some bg) c1 l).2.2, mem_labelIds]
  · exact List.Pairwise.filter _ (pairwise_uniqueSorted gt)
  · intro l
    exact mem_labelIds

/-- Witness for C4: ground truth values [0,1,2] with background 0; label 2
has zero predicted instances under the first oracle yet its precision key is
present, and the key list agrees with that of a different oracle. -/
theorem claim_C4_witness :
    ((2 : ℤ) ∈ ([0, 1, 2] : List ℤ) ∧ (2 : ℤ) ≠ 0) ∧
    ScoreKey.precision 2 ∈
      (scoreReport [0, 1, 2] (some 0) (fun _ => ⟨0, 0, 5⟩)).map Prod.fst ∧
    (scoreReport [0, 1, 2] (some 0) (fun _ => ⟨0, 0, 5⟩)).map Prod.fst =
      (scoreReport [0, 1, 2] (some 0) (fun _ => ⟨1, 1, 1⟩)).map Prod.fst := by
  have h := claim_C4 [0, 1, 2] 0 (fun _ => ⟨0, 0, 5⟩) (fun _ => ⟨1, 1, 1⟩)
  exact ⟨⟨by decide, by decide⟩, (h.2.1 2).2 ⟨by decide, by decide⟩, h.1⟩

/-- C8 counterexample: when the ground truth's attribute mapping has no
`background_label` entry, `score_prediction` does not score the labels: the
attribute read `target.attrs['background_label']` fails (KeyError), so the
call returns no report at all. -/
theorem claim_C8_counterexample :
    score_prediction [5] none (fun _ => ⟨0, 0, 0⟩) =
      .error "KeyError: background_label" ∧
    exceptOk (score_prediction [5] none (fun _ => ⟨0, 0, 0⟩)) = false := ⟨rfl, rfl⟩

/-- C8 (amended): when the `background_label` attribute is present with the
null value `None`, `score_prediction` applies no background filtering and
scores every label present in the ground truth; when the attribute entry is
absent, the attribute read raises instead. -/
theorem claim_C8 (gt : List ℤ) (counts : ℤ → Counts) :
    score_prediction gt (some none) counts = .ok (scoreReport gt none counts) ∧
    labelIds gt none = uniqueSorted gt ∧
    (∀ l, l ∈ gt →
      ScoreKey.precision l ∈ (scoreReport gt none counts).map Prod.fst ∧
      ScoreKey.recall l ∈ (scoreReport gt none counts).map Prod.fst ∧
      ScoreKey.fscore l ∈ (scoreReport gt none counts).map Prod.fst) ∧
    (∀ backgroundAttr : Option (Option ℤ), backgroundAttr = none →
      exceptOk (score_prediction gt backgroundAttr counts) = false) := by
  refine ⟨rfl, rfl, ?_, ?_⟩
  · intro l hl
    have hm : l ∈ labelIds gt none := by
      rw [labelIds]
      exact mem_uniqueSorted.2 hl
    have h := key_mem_scoreReport gt none counts l
    exact ⟨h.1.2 hm, h.2.1.2 hm, h.2.2.2 hm⟩
  · intro battr hb
    rw [hb]
    rfl

/-- Witness for C8: the single ground-truth label 7 is scored when the
background attribute is null, and the call fails when the attribute entry is
absent. -/
theorem claim_C8_witness :
    (7 : ℤ) ∈ ([7] : List ℤ) ∧
    ScoreKey.precision 7 ∈
      (scoreReport [7] none (fun _ => ⟨0, 0, 0⟩)).map Prod.fst ∧
    exceptOk (score_prediction [7] none (fun _ => ⟨0, 0, 0⟩)) = false := by
  have h := claim_C8 [7] (fun _ => ⟨0, 0, 0⟩)
  exact ⟨by decide, (h.2.2.1 7 (by decide)).1, h.2.2.2 none rfl⟩

end VesicleDet
